import Mathlib

/-!
Verification development for `slp_combo_finder`, a tool that scans recorded
fighting-game matches and extracts "kill combo" time windows.

The Rust sources (`src/lib.rs`, `src/main.rs`) are shallowly embedded:

* `usize` becomes `Nat` (Rust `saturating_sub` is `Nat` subtraction; a plain
  `usize` subtraction that can underflow is modelled by an explicit check,
  with the underflow-and-panic behaviour represented as `Except.error ()`);
* `f32` quantities (damage percents, animation frame counters, strictness)
  are modelled exactly over `ℚ`; every constant appearing in the code and in
  the concrete inputs below is exactly representable in `f32`, so the
  idealisation agrees with the source on them;
* fallible operations return `Except Unit`, where `Except.error ()` stands
  for a Rust panic (integer underflow, out-of-bounds index, `.unwrap()` on a
  missing value);
* the external crate `slp_parser` (file parsing, action-state classification,
  shift-JIS text decoding) is outside this repository and is modelled by the
  shape of its outputs: a frame carries the classifier's cached broad-state
  category, the grab-start flag the code compares against, the animation
  frame counter and the damage percent; file reading and text decoding are
  oracles supplied as parameters.
-/

namespace Slp

/-- Decidable equality for `Except`, used to evaluate the embedded fallible
functions on concrete inputs. -/
instance {ε α : Type} [DecidableEq ε] [DecidableEq α] : DecidableEq (Except ε α) := by
  intro a b
  cases a <;> cases b
  case error.error e e' => exact decidable_of_iff (e = e') (by simp)
  case ok.ok x y => exact decidable_of_iff (x = y) (by simp)
  all_goals exact isFalse (by simp)

/-- Coarse ("broad") standard action-state categories from the external
classifier, as consumed by the code.  States other than the five named
categories are collapsed into `Other`, which carries the classifier's
`is_actionable` value for that state. -/
inductive StandardBroadState
  | Hitstun | Ground | Attack | GenericInactionable | Dead
  | Other (actionable : Bool)
  deriving DecidableEq, Repr

/-- `StandardBroadState::is_actionable` of the external classifier.  The five
named categories are not actionable (hitstun, lying on the ground, attacking,
generic inactionable, dead); other standard states carry their flag. -/
def StandardBroadState.is_actionable : StandardBroadState → Bool
  | .Other b => b
  | _ => false

/-- `BroadState` of the external classifier: a standard category or a
character-specific special state (variant index opaque to the core). -/
inductive BroadState
  | Standard (s : StandardBroadState)
  | Special (v : Nat)
  deriving DecidableEq, Repr

/-- The observable view of `slp_parser::ActionState` that the core consumes:
whether the raw state is `Catch`/`CatchDash` (the two grab-start states the
pruning pass compares against), and its cached broad-state category. -/
structure ActionState where
  isCatch : Bool
  broad : BroadState
  deriving DecidableEq, Repr

/-- `ActionState::broad_state()` — returns the classifier's cached category. -/
def ActionState.broad_state (a : ActionState) : BroadState := a.broad

/-- One per-frame snapshot for one competitor (`slp_parser::Frame`),
restricted to the fields the core reads. -/
structure Frame where
  character : Nat
  state : ActionState
  anim_frame : ℚ
  percent : ℚ
  deriving DecidableEq, Repr

/-- Placeholder frame used as the (never reached) default of in-bounds list
indexing. -/
def noFrame : Frame :=
  { character := 0
    state := { isCatch := false, broad := .Standard (.Other false) }
    anim_frame := 0
    percent := 0 }

/-- Rust `f32::round`: round half away from zero, modelled on `ℚ`. -/
def rustRound (x : ℚ) : ℤ := if x < 0 then -((1/2 - x).floor) else (x + 1/2).floor

/-- Broad state is `Standard(Hitstun | Ground | Attack)` — the condition of
the first backward pass (src/lib.rs line 71). -/
def isHGA : BroadState → Bool
  | .Standard .Hitstun => true
  | .Standard .Ground => true
  | .Standard .Attack => true
  | _ => false

/-- Broad state is `Standard(Hitstun)`. -/
def isHitstunB : BroadState → Bool
  | .Standard .Hitstun => true
  | _ => false

/-- Condition under which the backward scan decrements the defender
consecutive-actionable counter (src/lib.rs lines 93–99): broad state is
Attack, GenericInactionable or any Special, or a standard state whose
`is_actionable` holds. -/
def defenderActionableDec : BroadState → Bool
  | .Standard .Attack => true
  | .Standard .GenericInactionable => true
  | .Special _ => true
  | .Standard s => s.is_actionable

/-- First backward pass of `combo_start` (src/lib.rs lines 67–78), scanning
indices `k-1, k-2, …, 0` for the last frame whose defender broad state is
Hitstun, Ground or Attack. -/
def lastHitEndGo (def_frame : List Frame) : Nat → Option Nat
  | 0 => none
  | f+1 =>
    if isHGA (def_frame.getD f noFrame).state.broad_state then some f
    else lastHitEndGo def_frame f

/-- `last_hit_end`: result of the first backward pass over the whole window.
The loop bound is `atk_frame.len()` as in the source (the two windows have
equal length by the caller's contract). -/
def lastHitEnd (atk_frame def_frame : List Frame) : Option Nat :=
  lastHitEndGo def_frame atk_frame.length

/-- Second backward pass of `combo_start` (src/lib.rs lines 80–112): scan
from `last_hit_end - 1` down to 0 maintaining the defender
consecutive-actionable countdown (reset to `dMax` on non-actionable frames)
and the attacker total-hitstun countdown (never reset), recording the most
recent defender-hitstun index in `first_hit`, and stopping as soon as either
counter reaches zero.  The fuel argument is the index after the next frame to
examine, exactly as in the source's `for f in (0..last_hit_end).rev()`.
The counters are at least 1 whenever they are decremented (the loop breaks at
zero), so `Nat` subtraction agrees with the source's `usize` subtraction. -/
def pass2Go (atk_frame def_frame : List Frame) (dMax : Nat) :
    Nat → Nat → Nat → Option Nat → Option Nat
  | 0, _, _, first_hit => first_hit
  | f+1, dCnt, aCnt, first_hit =>
    let defS := (def_frame.getD f noFrame).state.broad_state
    let atkS := (atk_frame.getD f noFrame).state.broad_state
    let first_hit' := if isHitstunB defS then some f else first_hit
    let dCnt' := if defenderActionableDec defS then dCnt - 1 else dMax
    let aCnt' := if isHitstunB atkS then aCnt - 1 else aCnt
    if aCnt' = 0 then first_hit'
    else if dCnt' = 0 then first_hit'
    else pass2Go atk_frame def_frame dMax f dCnt' aCnt' first_hit'

/-- Forward pruning loop of `combo_start` over the attacker frames
`atk_frame[first..last_hit_end]` (src/lib.rs lines 123–147): a grab-start
frame (`Catch`/`CatchDash` at animation frame 0) decrements the
consecutive-grab countdown; an Attack or Special frame resets it to `gMax`
and, at animation frame 1, increments the attack tally.  Returns `none` when
the grab countdown reaches zero (the source's early `return None`), otherwise
the final attack tally. -/
def pruneGo (gMax : Nat) : List Frame → Nat → Nat → Option Nat
  | [], _, atks => some atks
  | fr :: rest, grabs, atks =>
    let grabs1 := if fr.state.isCatch ∧ fr.anim_frame = 0 then grabs - 1 else grabs
    let isAtkSpecial : Bool :=
      match fr.state.broad_state with
      | .Standard .Attack => true
      | .Special _ => true
      | _ => false
    let grabs2 := if isAtkSpecial then gMax else grabs1
    let atks' := if isAtkSpecial ∧ fr.anim_frame = 1 then atks + 1 else atks
    if grabs2 = 0 then none else pruneGo gMax rest grabs2 atks'

/-- `combo_start` (src/lib.rs lines 49–153): given the two aligned frame
windows and the strictness, locate the most plausible first frame of the kill
combo.  `Except.error ()` models the panic of the source at line 119, where
`def_frame[first-1]` is evaluated unconditionally: when `first = 0` the
`usize` index `first - 1` underflows and the access panics. -/
def combo_start (atk_frame def_frame : List Frame) (strictness : ℚ) :
    Except Unit (Option Nat) :=
  let max_defender_consecutive_actionable := (rustRound (35 - 10 * strictness)).toNat
  let max_attacker_total_hitstun          := (rustRound (65 - 10 * strictness)).toNat
  let max_attacker_consecutive_grab_count := (rustRound (6 - 4 * strictness)).toNat
  let min_attacker_attack_actions         := (rustRound (3 + 6 * strictness)).toNat
  let min_defender_total_damage : ℚ       := (rustRound (20 + 40 * strictness) : ℤ)
  match lastHitEnd atk_frame def_frame with
  | none => .ok none
  | some last_hit_end =>
    match pass2Go atk_frame def_frame max_defender_consecutive_actionable
        last_hit_end max_defender_consecutive_actionable max_attacker_total_hitstun
        none with
    | none => .ok none
    | some first =>
      match def_frame.getLast? with
      | none => .error ()
      | some lastF =>
        if first = 0 then .error ()
        else
          let damage_dealt := lastF.percent - (def_frame.getD (first - 1) noFrame).percent
          if damage_dealt < min_defender_total_damage then .ok none
          else
            match pruneGo max_attacker_consecutive_grab_count
                ((atk_frame.drop first).take (last_hit_end - first))
                max_attacker_consecutive_grab_count 0 with
            | none => .ok none
            | some attacker_attacks =>
              if attacker_attacks < min_attacker_attack_actions then .ok none
              else .ok (some first)

/-- The value of `first_hit` after the two backward passes of `combo_start`,
for the stated strictness: `none` when no last-hit-end exists or when the
bounded backward scan records no defender-hitstun frame. -/
def firstHitIndex (atk_frame def_frame : List Frame) (strictness : ℚ) : Option Nat :=
  match lastHitEnd atk_frame def_frame with
  | none => none
  | some last_hit_end =>
    pass2Go atk_frame def_frame ((rustRound (35 - 10 * strictness)).toNat)
      last_hit_end ((rustRound (35 - 10 * strictness)).toNat)
      ((rustRound (65 - 10 * strictness)).toNat) none

/-- Output record of the detector (`Combo` in src/lib.rs lines 3–8).  A
filesystem path is modelled as its string form; the conversion
`Path::to_string_lossy` used by the playlist writer is the identity on it. -/
structure Combo where
  path : String
  start : Nat
  «end» : Nat
  deriving DecidableEq, Repr

/-- Detection configuration (`Config` in src/lib.rs lines 15–29).  Characters
are opaque identifiers; name/code filters are substrings to search for. -/
structure Config where
  lead_in : Nat
  lead_out : Nat
  strictness : ℚ
  player_character : Option Nat := none
  player_code : Option String := none
  player_name : Option String := none
  opponent_character : Option Nat := none
  opponent_code : Option String := none
  opponent_name : Option String := none
  deriving DecidableEq, Repr

/-- Broad state is `Standard(Dead)` — the driver's kill test
(src/lib.rs lines 174 and 202, `== StandardBroadState::Dead.into()`). -/
def isDeadF (fr : Frame) : Bool :=
  match fr.state.broad_state with
  | .Standard .Dead => true
  | _ => false

/-- The per-kill character re-check of the driver (src/lib.rs lines 181–182):
`config.player_character.is_some_and(|c| c != atk_frame[f].character)` breaks
out without detecting, and likewise for the opponent; this function is true
when neither configured character mismatches at frame `f`. -/
def charFilterPassAt (config : Config) (atk_frame def_frame : List Frame) (f : Nat) : Bool :=
  !(config.player_character.any fun c => c ≠ (atk_frame.getD f noFrame).character) &&
  !(config.opponent_character.any fun c => c ≠ (def_frame.getD f noFrame).character)

/-- One kill-handling step of the driver at a Dead frame `f` (src/lib.rs
lines 179–199): re-check the character filters, invoke the locator on the
prefixes `[0, f)`, and on success build the Combo record with
`start = kill_combo_start.saturating_sub(lead_in)` and
`end = (f + lead_out).min(frame_count)`.  `n` is `frame_count`. -/
def comboAt (config : Config) (path : String) (atk_frame def_frame : List Frame)
    (n f : Nat) : Except Unit (Option Combo) :=
  if charFilterPassAt config atk_frame def_frame f then
    match combo_start (atk_frame.take f) (def_frame.take f) config.strictness with
    | .error e => .error e
    | .ok none => .ok none
    | .ok (some kill_combo_start) =>
      .ok (some { path := path
                  start := kill_combo_start - config.lead_in
                  «end» := min (f + config.lead_out) n })
  else .ok none

/-- The successful-result projection of `comboAt` (its value when the step
does not panic). -/
def comboAtOk (config : Config) (path : String) (atk_frame def_frame : List Frame)
    (n f : Nat) : Option Combo :=
  match comboAt config path atk_frame def_frame n f with
  | .ok o => o
  | .error _ => none

/-- The inner skipping loop of the driver (src/lib.rs line 202): advance `f`
past the contiguous run of Dead defender frames.  The fuel argument bounds
the number of iterations; every caller supplies fuel at least `n - f`, which
the loop never exceeds since `f` grows by one per iteration. -/
def skipDead (def_frame : List Frame) (n : Nat) : Nat → Nat → Nat
  | 0, f => f
  | fuel+1, f =>
    if f < n then
      if isDeadF (def_frame.getD f noFrame) then skipDead def_frame n fuel (f+1) else f
    else f

/-- The driver's outer scan (`inner` in src/lib.rs lines 161–204) from frame
`f` on: advance to the next Dead defender frame, run the kill-handling step
there, then skip the remainder of the Dead run and resume.  Combos are
accumulated in scan order (the source pushes them into the shared vector).
The fuel argument bounds the number of iterations; every caller supplies
fuel at least `n - f`, which the loop never exceeds since `f` grows by at
least one per iteration. -/
def innerGo (config : Config) (path : String) (atk_frame def_frame : List Frame)
    (n : Nat) : Nat → Nat → Except Unit (List Combo)
  | 0, _ => .ok []
  | fuel+1, f =>
    if f < n then
      if isDeadF (def_frame.getD f noFrame) then
        match comboAt config path atk_frame def_frame n f with
        | .error e => .error e
        | .ok copt =>
          match innerGo config path atk_frame def_frame n fuel
              (skipDead def_frame n fuel (f+1)) with
          | .error e => .error e
          | .ok rest => .ok (copt.toList ++ rest)
      else innerGo config path atk_frame def_frame n fuel (f+1)
    else .ok []

/-- `inner` (src/lib.rs lines 161–204): scan a whole match, with
`frame_count = atk_frame.len()` as in the source. -/
def inner (config : Config) (path : String) (atk_frame def_frame : List Frame) :
    Except Unit (List Combo) :=
  innerGo config path atk_frame def_frame atk_frame.length atk_frame.length 0

/-- The indices at which the driver's outer scan runs its kill-handling step,
from frame `f` on: the trace of Dead frames reached by the scan-and-skip loop
of `inner`.  Same fuel convention as `innerGo`. -/
def deadRunStartsGo (def_frame : List Frame) (n : Nat) : Nat → Nat → List Nat
  | 0, _ => []
  | fuel+1, f =>
    if f < n then
      if isDeadF (def_frame.getD f noFrame) then
        f :: deadRunStartsGo def_frame n fuel (skipDead def_frame n fuel (f+1))
      else deadRunStartsGo def_frame n fuel (f+1)
    else []

/-- The kill frames of a whole-match scan: indices where the driver triggers
its kill-handling step. -/
def deadRunStarts (def_frame : List Frame) (n : Nat) : List Nat :=
  deadRunStartsGo def_frame n n 0

/-- Frame `g` is the first frame of a maximal contiguous run of defender-Dead
frames: it is Dead and is either frame 0 or preceded by a non-Dead frame. -/
def isDeadRunStart (def_frame : List Frame) (g : Nat) : Bool :=
  isDeadF (def_frame.getD g noFrame) &&
    (decide (g = 0) || !isDeadF (def_frame.getD (g-1) noFrame))

/-- The match filter (`passes` in src/lib.rs lines 206–223): exact character
match, substring containment for names and connect codes, each constraint
applying only when configured.  Rust `str::contains` is substring search,
modelled on the underlying character lists. -/
def passes (config : Config) (p_char : Nat) (p_code p_name : String)
    (o_char : Nat) (o_code o_name : String) : Bool :=
  if config.player_character.any fun c => c ≠ p_char then false
  else if config.opponent_character.any fun c => c ≠ o_char then false
  else if config.player_name.any fun c => !(decide (c.data <:+: p_name.data)) then false
  else if config.opponent_name.any fun c => !(decide (c.data <:+: o_name.data)) then false
  else if config.player_code.any fun c => !(decide (c.data <:+: p_code.data)) then false
  else if config.opponent_code.any fun c => !(decide (c.data <:+: o_code.data)) then false
  else true

/-- Lightweight match metadata returned by `slp_parser::read_info`, restricted
to the fields the core reads.  Ports index per-slot arrays; the slot arrays
are modelled as functions from the port number.  `charColours p` stands for
`starting_character_colours[p]` composed with `.character()`; names and
connect codes are raw byte buffers awaiting shift-JIS decoding. -/
structure MatchInfo where
  lowHigh : Option (Nat × Nat)
  charColours : Nat → Option Nat
  names : Nat → List Nat
  connectCodes : Nat → List Nat

/-- Full decode returned by `slp_parser::read_game`: one optional frame
timeline per port. -/
structure Game where
  frames : Nat → Option (List Frame)

/-- Oracle for the external collaborators of one detection run: the recording
parser (`read_info` / `read_game`), shift-JIS text decoding, the filesystem
existence check (`path.try_exists()` collapsed to whether it returned
`Ok(true)`) and the recursive file enumeration (`get_targets`), all opaque
I/O from the core's viewpoint. -/
structure RunOracle where
  readInfo : String → Except Unit MatchInfo
  readGame : String → Except Unit Game
  decodeShiftJis : List Nat → Except Unit String
  pathExists : String → Bool
  targets : String → List String

/-- The per-file driver (`combos` in src/lib.rs lines 156–278).  Parse
failures of `read_info` / `read_game` and missing port info return zero
combos; the four `decode_shift_jis(..).unwrap()` calls, the
`starting_character_colours[..].unwrap()` calls and the
`game.frames[..].unwrap()` calls panic (`Except.error ()`) when the value is
missing, exactly as the source's unwraps do.  The two driver passes run
sequentially and their pushes are accumulated in order (the shared
mutex-guarded vector of the source, with lock poisoning out of scope). -/
def combosFile (o : RunOracle) (config : Config) (path : String) :
    Except Unit (List Combo) :=
  match o.readInfo path with
  | .error _ => .ok []
  | .ok info =>
    match info.lowHigh with
    | none => .ok []
    | some (low_port, high_port) =>
      match info.charColours low_port, info.charColours high_port with
      | some p1_char, some p2_char =>
        match o.decodeShiftJis (info.names low_port),
            o.decodeShiftJis (info.names high_port),
            o.decodeShiftJis (info.connectCodes low_port),
            o.decodeShiftJis (info.connectCodes high_port) with
        | .ok p1_name, .ok p2_name, .ok p1_code, .ok p2_code =>
          let p1_passes := passes config p1_char p1_code p1_name p2_char p2_code p2_name
          let p2_passes := passes config p2_char p2_code p2_name p1_char p1_code p1_name
          if p1_passes || p2_passes then
            match o.readGame path with
            | .error _ => .ok []
            | .ok game =>
              match game.frames low_port, game.frames high_port with
              | some f1, some f2 =>
                match (if p1_passes then inner config path f1 f2 else .ok []) with
                | .error e => .error e
                | .ok l1 =>
                  match (if p2_passes then inner config path f2 f1 else .ok []) with
                  | .error e => .error e
                  | .ok l2 => .ok (l1 ++ l2)
              | _, _ => .error ()
          else .ok []
        | _, _, _, _ => .error ()
      | _, _ => .error ()

/-- Sequential aggregation of `combos` over a file list, as in the
`targets.len() < 8` branch of `target_path` (src/lib.rs lines 295–299); with
8 or more files the source distributes the same per-file calls over 8 worker
threads pushing into one mutex-guarded vector, producing the same combined
results in some interleaved order.  A worker panic propagates out of
`thread::scope` and aborts the whole call, modelled by `Except.error`
propagation. -/
def runFiles (o : RunOracle) (config : Config) : List String → Except Unit (List Combo)
  | [] => .ok []
  | p :: rest =>
    match combosFile o config p with
    | .error e => .error e
    | .ok l =>
      match runFiles o config rest with
      | .error e => .error e
      | .ok r => .ok (l ++ r)

/-- `TargetPathError` (src/lib.rs lines 10–13). -/
inductive TargetPathError
  | PathNotFound
  deriving DecidableEq, Repr

/-- Outcome of a `target_path` call: the typed error, a panic somewhere in the
run, or the aggregated combo list. -/
inductive RunResult
  | err (e : TargetPathError)
  | panicked
  | ok (l : List Combo)
  deriving DecidableEq, Repr

/-- `target_path` (src/lib.rs lines 280–329): fail with `PathNotFound` unless
the up-front existence check succeeds, enumerate the eligible files, then run
the per-file driver over them and return the aggregate (progress reporting is
output-only and omitted). -/
def target_path (o : RunOracle) (config : Config) (path : String) : RunResult :=
  if o.pathExists path = false then .err .PathNotFound
  else
    match runFiles o config (o.targets path) with
    | .error _ => .panicked
    | .ok l => .ok l

/-- Rust `slice::chunks(k)`: split into consecutive chunks of length `k`,
the last chunk possibly shorter.  The `k = 0` case panics in Rust and is
never reached by the callers below (their chunk sizes are at least 1); it is
mapped to the empty list. -/
def chunksOf {α : Type} : Nat → List α → List (List α)
  | _, [] => []
  | 0, _ :: _ => []
  | k+1, x :: xs => ((x :: xs).take (k+1)) :: chunksOf (k+1) ((x :: xs).drop (k+1))
  termination_by _ l => l.length
  decreasing_by simp [List.drop]; omega

/-- The 8-way partition of the eligible-file list in `target_path`
(src/lib.rs lines 301–307): with `chunk = n / 8` and
`split = (chunk + 1) * (n % 8)`, chain chunks of size `chunk + 1` over the
first `split` files with chunks of size `chunk` over the rest.  The source
writes the resulting chunks into an 8-slot array by enumeration; for
`n ≥ 8` exactly 8 chunks are produced (proved below), so the array holds
precisely this list. -/
def targetSlices {α : Type} (targets : List α) : List (List α) :=
  let chunk := targets.length / 8
  let split := (chunk + 1) * (targets.length % 8)
  chunksOf (chunk + 1) (targets.take split) ++ chunksOf chunk (targets.drop split)

/-- JSON documents as handled by the external `json` crate, restricted to the
shapes the playlist code produces and inspects.  Numbers are integers here:
the playlist writer only ever emits integer frame numbers. -/
inductive Json
  | str (s : String)
  | int (n : ℤ)
  | arr (l : List Json)
  | obj (l : List (String × Json))
  | null

/-- Object/array indexing `value[key]` of the `json` crate: member lookup on
an object, `Null` on a missing key or a non-object. -/
def Json.get (j : Json) (key : String) : Json :=
  match j with
  | .obj l => ((l.lookup key).getD .null)
  | _ => .null

/-- `JsonValue::take_string`: the contained string, if any. -/
def Json.take_string : Json → Option String
  | .str s => some s
  | _ => none

/-- `JsonValue::as_i64`: the contained integer when it fits in `i64`. -/
def Json.as_i64 : Json → Option ℤ
  | .int n => if -(2^63) ≤ n ∧ n < 2^63 then some n else none
  | _ => none

/-- The `json` crate's `PartialEq<&str>` on `JsonValue`, used by the
`parsed["mode"] != "queue"` check: true exactly on an equal string. -/
def Json.eqString : Json → String → Bool
  | .str s, t => s = t
  | _, _ => false

/-- `JsonValue::is_array`. -/
def Json.is_array : Json → Bool
  | .arr _ => true
  | _ => false

/-- Rust `usize as isize` on a 64-bit target: wrap into the signed range. -/
def usizeAsIsize (n : Nat) : ℤ :=
  if n < 2^63 then (n : ℤ) else (n : ℤ) - 2^64

/-- Rust `i64 as usize` on a 64-bit target: wrap into the unsigned range. -/
def i64AsUsize (z : ℤ) : Nat := (z % 2^64).toNat

/-- The JSON object built for one combo by `write_playlist` (src/lib.rs lines
357–362): the path string and the two frame indices shifted by the recording
format's `-123` frame-numbering offset (computed in `isize`). -/
def comboJson (c : Combo) : Json :=
  .obj [("path", .str c.path),
        ("startFrame", .int (usizeAsIsize c.start - 123)),
        ("endFrame", .int (usizeAsIsize c.«end» - 123))]

/-- The playlist document built by `write_playlist` (src/lib.rs lines
354–371) before serialization to text; the `json` crate's
stringify/parse pair is an external identity-on-documents codec and is out
of scope, so the writer is modelled up to this document. -/
def write_playlist (combos : List Combo) : Json :=
  .obj [("mode", .str "queue"),
        ("replay", .str ""),
        ("queue", .arr (combos.map comboJson))]

/-- `ParsePlaylistError` (src/lib.rs lines 373–377), without the payload of
the external parse error. -/
inductive ParsePlaylistError
  | JsonParseError
  | NotAPlaylistJsonFile
  deriving DecidableEq, Repr

/-- One queue entry of `parse_playlist_json` (src/lib.rs lines 395–402):
entries missing a string path or an integer frame are dropped by the
`filter_map`; the `+123` inverse shift is applied and cast back to `usize`
(integer arithmetic wraps modulo `2^64` as in release builds). -/
def parseEntry (v : Json) : Option Combo :=
  match (v.get "path").take_string with
  | none => none
  | some path =>
    match (v.get "startFrame").as_i64 with
    | none => none
    | some sf =>
      match (v.get "endFrame").as_i64 with
      | none => none
      | some ef =>
        some { path := path, start := i64AsUsize (sf + 123), «end» := i64AsUsize (ef + 123) }

/-- `parse_playlist_json` (src/lib.rs lines 388–405) applied to an
already-parsed document (malformed text is rejected by the external
`json::parse` with the distinct `JsonParseError` kind before this logic
runs): require `mode == "queue"` and an array `queue`, then rebuild the
combo list entry by entry. -/
def parse_playlist_json (j : Json) : Except ParsePlaylistError (List Combo) :=
  if !(j.get "mode").eqString "queue" then .error .NotAPlaylistJsonFile
  else
    match j.get "queue" with
    | .arr q => .ok (q.filterMap parseEntry)
    | _ => .error .NotAPlaylistJsonFile

/-! Concrete frames used by the evaluation theorems below. -/

/-- A frame with the given broad state, animation frame and percent
(character 0, not a grab state). -/
def mkFrame (b : BroadState) (anim percent : ℚ) : Frame :=
  { character := 0, state := { isCatch := false, broad := b }, anim_frame := anim, percent := percent }

/-! ### Claim C4 — no Hitstun/Ground/Attack defender frame means no combo -/

lemma lastHitEndGo_eq_none (d : List Frame)
    (h : ∀ fr ∈ d, isHGA fr.state.broad_state = false) :
    ∀ k, k ≤ d.length → lastHitEndGo d k = none := by
  intro k
  induction k with
  | zero => intro _; rfl
  | succ f ih =>
    intro hk
    have hf : f < d.length := by omega
    rw [lastHitEndGo, List.getD_eq_getElem d noFrame hf,
      h _ (List.getElem_mem hf)]
    exact ih (by omega)

/-- Claim C4: for any two aligned frame windows in which no frame has the
defender's broad state classified as Hitstun, Ground or Attack (the empty
window included), `combo_start` returns `None`: the first backward pass finds
no last-hit-end. -/
theorem C4_no_hit_no_combo (atk_frame def_frame : List Frame) (strictness : ℚ)
    (hlen : atk_frame.length = def_frame.length)
    (h : ∀ fr ∈ def_frame, isHGA fr.state.broad_state = false) :
    combo_start atk_frame def_frame strictness = .ok none := by
  have hnone : lastHitEnd atk_frame def_frame = none :=
    lastHitEndGo_eq_none def_frame h atk_frame.length (le_of_eq hlen)
  simp only [combo_start, lastHitEnd] at hnone ⊢
  rw [hnone]

/-- Witness for C4 at a concrete window: a defender who is dead and otherwise
inactionable throughout (a self-destruct) yields no combo. -/
theorem C4_no_hit_no_combo_witness :
    ([mkFrame (.Standard (.Other true)) 0 0, mkFrame (.Standard .Attack) 1 0] : List Frame).length =
      ([mkFrame (.Standard (.Other false)) 0 0, mkFrame (.Standard .Dead) 0 0] : List Frame).length ∧
    (∀ fr ∈ [mkFrame (.Standard (.Other false)) 0 0, mkFrame (.Standard .Dead) 0 0],
        isHGA fr.state.broad_state = false) ∧
    combo_start [mkFrame (.Standard (.Other true)) 0 0, mkFrame (.Standard .Attack) 1 0]
      [mkFrame (.Standard (.Other false)) 0 0, mkFrame (.Standard .Dead) 0 0] (1/2) = .ok none :=
  ⟨by decide, by decide, C4_no_hit_no_combo _ _ _ (by decide) (by decide)⟩

/-! ### Claim C1 — the damage-baseline access at `first_hit = 0` -/

/-- Attacker window for the boundary case: two inert frames. -/
def atkFirst0 : List Frame :=
  [mkFrame (.Standard (.Other false)) 0 0, mkFrame (.Standard (.Other false)) 0 0]

/-- Defender window whose first recorded hit is at index 0: hitstun at frame
0, then a Ground frame that becomes `last_hit_end`. -/
def defFirst0 : List Frame :=
  [mkFrame (.Standard .Hitstun) 0 0, mkFrame (.Standard .Ground) 0 30]

/-- Claim C1: the claim asks that when the locator records its first hit at
index 0, the damage-baseline access stay in bounds and use frame 0's percent.
The code instead evaluates `def_frame[first_hit - 1]` unconditionally
(src/lib.rs line 119), and at `first_hit = 0` the `usize` subtraction
underflows and the access panics — exhibited here on a concrete window where
the two backward passes yield `first_hit = 0`. -/
theorem C1_first_hit_zero_panics :
    combo_start atkFirst0 defFirst0 (1/2) = .error () ∧
    firstHitIndex atkFirst0 defFirst0 (1/2) = some 0 := by
  constructor
  · with_unfolding_all decide
  · with_unfolding_all decide

/-! ### Claim C2 — monotonicity in strictness -/

/-- Attacker timeline of the monotonicity counterexample: inert frames except
nine attack frames (animation frame 1) at indices 33–41. -/
def atkMono : List Frame :=
  List.replicate 33 (mkFrame (.Standard (.Other false)) 0 0)
    ++ List.replicate 9 (mkFrame (.Standard .Attack) 1 0)
    ++ [mkFrame (.Standard (.Other false)) 0 0]

/-- Defender timeline of the monotonicity counterexample: an inert frame at
percent 100 (damage carried over from before an earlier respawn), a hitstun
frame, thirty actionable frames, ten hitstun frames, and a final Ground frame
at percent 60. -/
def defMono : List Frame :=
  [mkFrame (.Standard (.Other false)) 0 100, mkFrame (.Standard .Hitstun) 0 0]
    ++ List.replicate 30 (mkFrame (.Standard (.Other true)) 0 0)
    ++ List.replicate 10 (mkFrame (.Standard .Hitstun) 0 0)
    ++ [mkFrame (.Standard .Ground) 0 60]

/-- Counterexample to claim C2: on this fixed pair of aligned windows the
locator returns `None` at strictness 0 but `Some 32` at strictness 1, so
raising strictness can turn `None` into `Some`.  At strictness 0 the longer
backward scan reaches the hitstun frame at index 1, and the damage baseline
`def_frame[0].percent = 100` makes the measured damage negative, failing the
minimum-damage check; at strictness 1 the scan stops inside the
thirty-frame actionable run, the first hit is index 32, and damage 60 with
nine attacks passes every check. -/
theorem C2_counterexample :
    (0 : ℚ) ≤ 1 ∧
    combo_start atkMono defMono 0 = .ok none ∧
    combo_start atkMono defMono 1 = .ok (some 32) := by
  refine ⟨by norm_num, ?_, ?_⟩
  · with_unfolding_all decide
  · with_unfolding_all decide

lemma pass2Go_some_isSome (atk_frame def_frame : List Frame) (dM : Nat) :
    ∀ f dC aC x, (pass2Go atk_frame def_frame dM f dC aC (some x)).isSome := by
  intro f
  induction f with
  | zero => intro dC aC x; rfl
  | succ f ih =>
    intro dC aC x
    simp only [pass2Go]
    repeat' split
    all_goals first | rfl | exact ih _ _ _

lemma pass2Go_none_mono (atk_frame def_frame : List Frame) {dM1 dM2 : Nat}
    (hdM : dM2 ≤ dM1) :
    ∀ f dC1 aC1 dC2 aC2, dC2 ≤ dC1 → aC2 ≤ aC1 →
    pass2Go atk_frame def_frame dM1 f dC1 aC1 none = none →
    pass2Go atk_frame def_frame dM2 f dC2 aC2 none = none := by
  intro f
  induction f with
  | zero => intro _ _ _ _ _ _ _; rfl
  | succ f ih =>
    intro dC1 aC1 dC2 aC2 hd ha h1
    simp only [pass2Go] at h1 ⊢
    set dC1' := (if defenderActionableDec (def_frame.getD f noFrame).state.broad_state
      then dC1 - 1 else dM1) with hdc1
    set aC1' := (if isHitstunB (atk_frame.getD f noFrame).state.broad_state
      then aC1 - 1 else aC1) with hac1
    set dC2' := (if defenderActionableDec (def_frame.getD f noFrame).state.broad_state
      then dC2 - 1 else dM2) with hdc2
    set aC2' := (if isHitstunB (atk_frame.getD f noFrame).state.broad_state
      then aC2 - 1 else aC2) with hac2
    have hd' : dC2' ≤ dC1' := by rw [hdc1, hdc2]; split <;> omega
    have ha' : aC2' ≤ aC1' := by rw [hac1, hac2]; split <;> omega
    by_cases hds : isHitstunB (def_frame.getD f noFrame).state.broad_state
    · -- the scanned frame is defender hitstun: `first_hit` becomes `some f`
      -- on both sides, so the strictness-1 result cannot have been `none`
      exfalso
      rw [if_pos hds] at h1
      have hs := pass2Go_some_isSome atk_frame def_frame dM1 f dC1' aC1' f
      split at h1
      · exact Option.noConfusion h1
      · split at h1
        · exact Option.noConfusion h1
        · rw [h1] at hs; exact Bool.noConfusion hs
    · rw [if_neg hds] at h1 ⊢
      by_cases ha2 : aC2' = 0
      · rw [if_pos ha2]
      · rw [if_neg ha2]
        by_cases hd2 : dC2' = 0
        · rw [if_pos hd2]
        · rw [if_neg hd2]
          rw [if_neg (by omega : ¬ aC1' = 0), if_neg (by omega : ¬ dC1' = 0)] at h1
          exact ih _ _ _ _ hd' ha' h1

lemma ratFloor_mono {x y : ℚ} (h : x ≤ y) : Rat.floor x ≤ Rat.floor y :=
  Rat.le_floor.mpr (le_trans (Rat.le_floor.mp le_rfl) h)

lemma rustRound_mono_nonneg {x y : ℚ} (hx : 0 ≤ x) (hxy : x ≤ y) :
    rustRound x ≤ rustRound y := by
  unfold rustRound
  rw [if_neg (not_lt.mpr hx), if_neg (not_lt.mpr (hx.trans hxy))]
  exact ratFloor_mono (by linarith)

/-- Claim C2 (amended): raising strictness never turns `None` into `Some`
when the `None` arises in the two backward passes — if at strictness `s1` no
last-hit-end exists or the bounded backward scan records no first hit, then
at any strictness `s2 ≥ s1` (both within `[0,1]`) the locator still returns
`None`, because the two scan-bounding thresholds only tighten and the scanned
range only shrinks.  (Monotonicity does not extend through the pruning pass:
see the counterexample.) -/
theorem C2_backward_passes_monotone (atk_frame def_frame : List Frame) (s1 s2 : ℚ)
    (h0 : 0 ≤ s1) (h12 : s1 ≤ s2) (h1 : s2 ≤ 1)
    (hnone : firstHitIndex atk_frame def_frame s1 = none) :
    combo_start atk_frame def_frame s2 = .ok none := by
  unfold firstHitIndex at hnone
  cases hlhe : lastHitEnd atk_frame def_frame with
  | none => simp only [combo_start, hlhe]
  | some lhe =>
    rw [hlhe] at hnone
    have hdM : (rustRound (35 - 10 * s2)).toNat ≤ (rustRound (35 - 10 * s1)).toNat :=
      Int.toNat_le_toNat (rustRound_mono_nonneg (by linarith) (by linarith))
    have haM : (rustRound (65 - 10 * s2)).toNat ≤ (rustRound (65 - 10 * s1)).toNat :=
      Int.toNat_le_toNat (rustRound_mono_nonneg (by linarith) (by linarith))
    have hp2 := pass2Go_none_mono atk_frame def_frame hdM lhe _ _ _ _ hdM haM hnone
    simp only [combo_start, hlhe, hp2]

/-- Witness for the amended C2 at a concrete window: the defender was only
ever on the ground (never in hitstun), so the backward scan records no first
hit at strictness 0, and the locator accordingly returns `None` at the larger
strictness 1/2. -/
theorem C2_backward_passes_monotone_witness :
    (0 : ℚ) ≤ 0 ∧ (0 : ℚ) ≤ 1/2 ∧ (1/2 : ℚ) ≤ 1 ∧
    firstHitIndex [mkFrame (.Standard .Attack) 1 0] [mkFrame (.Standard .Ground) 0 0] 0 = none ∧
    combo_start [mkFrame (.Standard .Attack) 1 0] [mkFrame (.Standard .Ground) 0 0] (1/2) =
      .ok none :=
  ⟨le_rfl, by norm_num, by norm_num, by with_unfolding_all decide,
    C2_backward_passes_monotone _ _ 0 (1/2) le_rfl (by norm_num) (by norm_num)
      (by with_unfolding_all decide)⟩

/-! ### Claim C7 — the 8-way partition of the file list -/

lemma chunksOf_nil {α : Type} (k : Nat) : chunksOf k ([] : List α) = [] := by
  rw [chunksOf]

lemma chunksOf_join {α : Type} :
    ∀ (n k : Nat) (l : List α), l.length ≤ n → 1 ≤ k → (chunksOf k l).flatten = l := by
  intro n
  induction n with
  | zero =>
    intro k l h hk
    have hl : l = [] := List.length_eq_zero.mp (by omega)
    subst hl
    rw [chunksOf_nil]
    rfl
  | succ n ih =>
    intro k l h hk
    match k, l with
    | k, [] => rw [chunksOf_nil]; rfl
    | 0, x :: xs => omega
    | k+1, x :: xs =>
      rw [chunksOf]
      simp only [List.flatten_cons]
      rw [ih (k+1) ((x :: xs).drop (k+1))
        (by simp only [List.length_drop, List.length_cons] at h ⊢; omega) (by omega)]
      exact List.take_append_drop _ _

lemma chunksOf_count {α : Type} :
    ∀ (n k : Nat) (l : List α), l.length ≤ n → 1 ≤ k → k ∣ l.length →
      (chunksOf k l).length = l.length / k := by
  intro n
  induction n with
  | zero =>
    intro k l h hk _
    have hl : l = [] := List.length_eq_zero.mp (by omega)
    subst hl
    rw [chunksOf_nil]
    simp
  | succ n ih =>
    intro k l h hk hdvd
    match k, l with
    | k, [] => rw [chunksOf_nil]; simp
    | 0, x :: xs => omega
    | k+1, x :: xs =>
      rcases hdvd with ⟨m, hm⟩
      have hm1 : 1 ≤ m := by
        rcases Nat.eq_zero_or_pos m with h0 | h0
        · rw [h0, Nat.mul_zero] at hm; simp at hm
        · omega
      have hdroplen : ((x :: xs).drop (k+1)).length = (k+1) * (m-1) := by
        simp only [List.length_drop]
        rw [hm]
        cases m with
        | zero => omega
        | succ m' => rw [Nat.succ_sub_one, Nat.mul_succ]; omega
      rw [chunksOf, List.length_cons,
        ih (k+1) ((x :: xs).drop (k+1))
          (by simp only [List.length_drop, List.length_cons] at h ⊢; omega)
          (by omega) ⟨m-1, hdroplen⟩,
        hdroplen, Nat.mul_div_cancel_left (m-1) (by omega), hm,
        Nat.mul_div_cancel_left m (by omega)]
      omega

lemma chunksOf_mem_length {α : Type} :
    ∀ (n k : Nat) (l : List α), l.length ≤ n → 1 ≤ k → k ∣ l.length →
      ∀ c ∈ chunksOf k l, c.length = k := by
  intro n
  induction n with
  | zero =>
    intro k l h hk _
    have hl : l = [] := List.length_eq_zero.mp (by omega)
    subst hl
    intro c hc
    rw [chunksOf_nil] at hc
    simp at hc
  | succ n ih =>
    intro k l h hk hdvd
    match k, l with
    | k, [] => intro c hc; rw [chunksOf_nil] at hc; simp at hc
    | 0, x :: xs => omega
    | k+1, x :: xs =>
      intro c hc
      rcases hdvd with ⟨m, hm⟩
      have hm1 : 1 ≤ m := by
        rcases Nat.eq_zero_or_pos m with h0 | h0
        · rw [h0, Nat.mul_zero] at hm; simp at hm
        · omega
      have hlen : k + 1 ≤ (x :: xs).length := by
        calc k + 1 = (k+1) * 1 := by ring
          _ ≤ (k+1) * m := Nat.mul_le_mul_left _ hm1
          _ = (x :: xs).length := hm.symm
      have hdroplen : ((x :: xs).drop (k+1)).length = (k+1) * (m-1) := by
        simp only [List.length_drop]
        rw [hm]
        cases m with
        | zero => omega
        | succ m' => rw [Nat.succ_sub_one, Nat.mul_succ]; omega
      rw [chunksOf] at hc
      rcases List.mem_cons.mp hc with hfirst | hrest
      · rw [hfirst, List.length_take]
        omega
      · exact ih (k+1) ((x :: xs).drop (k+1))
          (by simp only [List.length_drop, List.length_cons] at h ⊢; omega)
          (by omega) ⟨m-1, hdroplen⟩ c hrest

/-- Claim C7: for any eligible-file count of at least 8, the dispatcher's
partition yields exactly 8 contiguous slices which concatenate back to the
whole file list in order (hence are pairwise non-overlapping and collectively
exhaustive), the first `n mod 8` slices holding `n / 8 + 1` files and the
remaining slices `n / 8` files, so lengths differ by at most one. -/
theorem C7_partition (targets : List String) (h : 8 ≤ targets.length) :
    (targetSlices targets).length = 8 ∧
    (targetSlices targets).flatten = targets ∧
    ∃ extra rest,
      targetSlices targets = extra ++ rest ∧
      extra.length = targets.length % 8 ∧
      rest.length = 8 - targets.length % 8 ∧
      (∀ c ∈ extra, c.length = targets.length / 8 + 1) ∧
      (∀ c ∈ rest, c.length = targets.length / 8) := by
  have hts : targetSlices targets =
      chunksOf (targets.length / 8 + 1)
          (targets.take ((targets.length / 8 + 1) * (targets.length % 8))) ++
        chunksOf (targets.length / 8)
          (targets.drop ((targets.length / 8 + 1) * (targets.length % 8))) := rfl
  have hmod : 8 * (targets.length / 8) + targets.length % 8 = targets.length :=
    Nat.div_add_mod targets.length 8
  have hr8 : targets.length % 8 < 8 := Nat.mod_lt _ (by norm_num)
  have hc1 : 1 ≤ targets.length / 8 := (Nat.one_le_div_iff (by norm_num)).mpr h
  have hcr : (targets.length / 8) * (targets.length % 8) ≤ (targets.length / 8) * 8 :=
    Nat.mul_le_mul_left _ (by omega)
  have he2 : (targets.length / 8 + 1) * (targets.length % 8) =
      (targets.length / 8) * (targets.length % 8) + targets.length % 8 := by ring
  have hsple : (targets.length / 8 + 1) * (targets.length % 8) ≤ targets.length := by omega
  have htake : (targets.take ((targets.length / 8 + 1) * (targets.length % 8))).length =
      (targets.length / 8 + 1) * (targets.length % 8) := by
    rw [List.length_take]; omega
  have hdrop : (targets.drop ((targets.length / 8 + 1) * (targets.length % 8))).length =
      targets.length - (targets.length / 8 + 1) * (targets.length % 8) :=
    List.length_drop _ _
  have he3 : (targets.length / 8) * (8 - targets.length % 8) +
      (targets.length / 8) * (targets.length % 8) = (targets.length / 8) * 8 := by
    rw [← Nat.mul_add]; congr 1; omega
  have hd2len : targets.length - (targets.length / 8 + 1) * (targets.length % 8) =
      (targets.length / 8) * (8 - targets.length % 8) := by omega
  have hcount1 : (chunksOf (targets.length / 8 + 1)
      (targets.take ((targets.length / 8 + 1) * (targets.length % 8)))).length =
      targets.length % 8 := by
    rw [chunksOf_count _ _ _ le_rfl (by omega) (by rw [htake]; exact ⟨targets.length % 8, rfl⟩),
      htake, Nat.mul_div_cancel_left _ (by omega)]
  have hcount2 : (chunksOf (targets.length / 8)
      (targets.drop ((targets.length / 8 + 1) * (targets.length % 8)))).length =
      8 - targets.length % 8 := by
    rw [chunksOf_count _ _ _ le_rfl (by omega)
        (by rw [hdrop, hd2len]; exact ⟨8 - targets.length % 8, rfl⟩),
      hdrop, hd2len, Nat.mul_div_cancel_left _ (by omega)]
  refine ⟨?_, ?_, ?_⟩
  · rw [hts, List.length_append, hcount1, hcount2]; omega
  · rw [hts, List.flatten_append,
      chunksOf_join _ _ _ le_rfl (by omega),
      chunksOf_join _ _ _ le_rfl (by omega)]
    exact List.take_append_drop _ _
  · refine ⟨chunksOf (targets.length / 8 + 1)
        (targets.take ((targets.length / 8 + 1) * (targets.length % 8))),
      chunksOf (targets.length / 8)
        (targets.drop ((targets.length / 8 + 1) * (targets.length % 8))),
      hts, hcount1, hcount2, ?_, ?_⟩
    · exact chunksOf_mem_length _ _ _ le_rfl (by omega)
        (by rw [htake]; exact ⟨targets.length % 8, rfl⟩)
    · exact chunksOf_mem_length _ _ _ le_rfl (by omega)
        (by rw [hdrop, hd2len]; exact ⟨8 - targets.length % 8, rfl⟩)

/-- Eleven file paths, for exercising the partition. -/
def pathsC7 : List String :=
  ["a", "b", "c", "d", "e", "f", "g", "h", "i", "j", "k"]

/-- Witness for C7 on a concrete list of 11 paths: 3 slices of 2 and 5
slices of 1. -/
theorem C7_partition_witness :
    8 ≤ pathsC7.length ∧
    ((targetSlices pathsC7).length = 8 ∧
      (targetSlices pathsC7).flatten = pathsC7 ∧
      ∃ extra rest,
        targetSlices pathsC7 = extra ++ rest ∧
        extra.length = pathsC7.length % 8 ∧
        rest.length = 8 - pathsC7.length % 8 ∧
        (∀ c ∈ extra, c.length = pathsC7.length / 8 + 1) ∧
        (∀ c ∈ rest, c.length = pathsC7.length / 8)) :=
  ⟨by decide, C7_partition pathsC7 (by decide)⟩

/-! ### Claim C9 — playlist write/parse round trip -/

lemma parseEntry_comboJson (c : Combo) (h1 : 123 ≤ c.start) (h2 : c.start < 2^63)
    (h3 : 123 ≤ c.«end») (h4 : c.«end» < 2^63) :
    parseEntry (comboJson c) = some c := by
  obtain ⟨p, st, en⟩ := c
  simp only at h1 h2 h3 h4
  have hget1 : Json.get (comboJson ⟨p, st, en⟩) "path" = .str p := rfl
  have hget2 : Json.get (comboJson ⟨p, st, en⟩) "startFrame" =
      .int (usizeAsIsize st - 123) := rfl
  have hget3 : Json.get (comboJson ⟨p, st, en⟩) "endFrame" =
      .int (usizeAsIsize en - 123) := rfl
  have hst : usizeAsIsize st = (st : ℤ) := if_pos h2
  have hen : usizeAsIsize en = (en : ℤ) := if_pos h4
  unfold parseEntry
  rw [hget1, hget2, hget3, hst, hen]
  simp only [Json.take_string, Json.as_i64]
  rw [if_pos (by constructor <;> omega : -(2^63) ≤ (st : ℤ) - 123 ∧ (st : ℤ) - 123 < 2^63),
    if_pos (by constructor <;> omega : -(2^63) ≤ (en : ℤ) - 123 ∧ (en : ℤ) - 123 < 2^63)]
  have hru : ∀ m : Nat, m < 2^63 → i64AsUsize ((m : ℤ) - 123 + 123) = m := by
    intro m hm
    unfold i64AsUsize
    omega
  show some (Combo.mk p (i64AsUsize ((st : ℤ) - 123 + 123))
      (i64AsUsize ((en : ℤ) - 123 + 123))) = some (Combo.mk p st en)
  rw [hru st h2, hru en h4]

/-- Claim C9: for every non-empty combo list whose paths survive the (here
lossless) string conversion and whose frame indices stay non-negative after
the `-123` output offset, parsing the playlist document produced by the
writer reconstructs exactly the original list — the writer's `-123` shift and
the parser's `+123` shift cancel. -/
theorem C9_roundtrip (combos : List Combo) (hne : combos ≠ [])
    (hb : ∀ c ∈ combos, 123 ≤ c.start ∧ c.start < 2^63 ∧
      123 ≤ c.«end» ∧ c.«end» < 2^63) :
    parse_playlist_json (write_playlist combos) = .ok combos := by
  have hmode : Json.get (write_playlist combos) "mode" = .str "queue" := rfl
  have hqueue : Json.get (write_playlist combos) "queue" =
      .arr (combos.map comboJson) := rfl
  unfold parse_playlist_json
  rw [hmode, hqueue]
  have hqq : Json.eqString (Json.str "queue") "queue" = true := rfl
  simp only [hqq, Bool.not_true, Bool.false_eq_true, if_false]
  have hfm : ∀ l : List Combo,
      (∀ c ∈ l, 123 ≤ c.start ∧ c.start < 2^63 ∧ 123 ≤ c.«end» ∧ c.«end» < 2^63) →
      (l.map comboJson).filterMap parseEntry = l := by
    intro l
    induction l with
    | nil => intro _; rfl
    | cons c cs ih =>
      intro hl
      obtain ⟨hc1, hc2, hc3, hc4⟩ := hl c (by simp)
      simp only [List.map_cons, List.filterMap_cons,
        parseEntry_comboJson c hc1 hc2 hc3 hc4,
        ih (fun x hx => hl x (by simp [hx]))]
  exact congrArg Except.ok (hfm combos hb)

/-- A concrete playlist for the round-trip witness. -/
def playlistC9 : List Combo :=
  [{ path := "g1.slp", start := 123, «end» := 500 },
   { path := "g2.slp", start := 4000, «end» := 4123 }]

/-- Witness for C9 on a concrete two-element combo list. -/
theorem C9_roundtrip_witness :
    playlistC9 ≠ [] ∧
    (∀ c ∈ playlistC9, 123 ≤ c.start ∧ c.start < 2^63 ∧
      123 ≤ c.«end» ∧ c.«end» < 2^63) ∧
    parse_playlist_json (write_playlist playlistC9) = .ok playlistC9 :=
  ⟨by decide, by decide, C9_roundtrip playlistC9 (by decide) (by decide)⟩

/-! ### Driver structure: the scan visits exactly the first frame of every
maximal Dead run, and its output is the concatenation of the per-kill
results. -/

lemma skipDead_spec (def_frame : List Frame) (n : Nat) :
    ∀ fuel f, n ≤ fuel + f → f ≤ n →
      f ≤ skipDead def_frame n fuel f ∧
      skipDead def_frame n fuel f ≤ n ∧
      (∀ j, f ≤ j → j < skipDead def_frame n fuel f →
        isDeadF (def_frame.getD j noFrame) = true) ∧
      (skipDead def_frame n fuel f = n ∨
        isDeadF (def_frame.getD (skipDead def_frame n fuel f) noFrame) = false) := by
  intro fuel
  induction fuel with
  | zero =>
    intro f hfu hfn
    have hf : f = n := by omega
    simp only [skipDead]
    exact ⟨le_rfl, hfn, fun j h1 h2 => absurd h2 (by omega), Or.inl hf⟩
  | succ fuel ih =>
    intro f hfu hfn
    simp only [skipDead]
    by_cases hlt : f < n
    · rw [if_pos hlt]
      by_cases hdead : isDeadF (def_frame.getD f noFrame) = true
      · rw [if_pos hdead]
        obtain ⟨ih1, ih2, ih3, ih4⟩ := ih (f+1) (by omega) (by omega)
        refine ⟨by omega, ih2, ?_, ih4⟩
        intro j h1 h2
        rcases Nat.eq_or_lt_of_le h1 with rfl | h1'
        · exact hdead
        · exact ih3 j (by omega) h2
      · rw [if_neg hdead]
        exact ⟨le_rfl, hfn, fun j h1 h2 => absurd h2 (by omega),
          Or.inr (by revert hdead; cases isDeadF (def_frame.getD f noFrame) <;> simp)⟩
    · rw [if_neg hlt]
      exact ⟨le_rfl, hfn, fun j h1 h2 => absurd h2 (by omega), Or.inl (by omega)⟩

lemma innerGo_ok_eq (config : Config) (path : String)
    (atk_frame def_frame : List Frame) (n : Nat) :
    ∀ fuel f out, innerGo config path atk_frame def_frame n fuel f = .ok out →
      out = (deadRunStartsGo def_frame n fuel f).filterMap
        (comboAtOk config path atk_frame def_frame n) := by
  intro fuel
  induction fuel with
  | zero =>
    intro f out h
    simp only [innerGo] at h
    cases h
    rfl
  | succ fuel ih =>
    intro f out h
    simp only [innerGo, deadRunStartsGo] at h ⊢
    by_cases hlt : f < n
    · rw [if_pos hlt] at h ⊢
      by_cases hdead : isDeadF (def_frame.getD f noFrame) = true
      · rw [if_pos hdead] at h ⊢
        cases hca : comboAt config path atk_frame def_frame n f with
        | error e => rw [hca] at h; exact Except.noConfusion h
        | ok copt =>
          rw [hca] at h
          cases hrec : innerGo config path atk_frame def_frame n fuel
              (skipDead def_frame n fuel (f+1)) with
          | error e => rw [hrec] at h; exact Except.noConfusion h
          | ok rest =>
            rw [hrec] at h
            cases h
            rw [List.filterMap_cons, ih _ _ hrec]
            have hco : comboAtOk config path atk_frame def_frame n f = copt := by
              unfold comboAtOk
              rw [hca]
            rw [hco]
            cases copt <;> rfl
      · rw [if_neg hdead] at h ⊢
        exact ih _ _ h
    · rw [if_neg hlt] at h ⊢
      cases h
      rfl

lemma deadRunStartsGo_eq_filter (def_frame : List Frame) (n : Nat) :
    ∀ fuel f, n ≤ fuel + f →
      (f = 0 ∨ n ≤ f ∨ isDeadF (def_frame.getD (f-1) noFrame) = false ∨
        isDeadF (def_frame.getD f noFrame) = false) →
      deadRunStartsGo def_frame n fuel f =
        (List.range' f (n - f)).filter (fun g => isDeadRunStart def_frame g) := by
  intro fuel
  induction fuel with
  | zero =>
    intro f hfu _
    have hnf : n - f = 0 := by omega
    rw [hnf]
    rfl
  | succ fuel ih =>
    intro f hfu hinv
    simp only [deadRunStartsGo]
    by_cases hlt : f < n
    · rw [if_pos hlt]
      have hrange : List.range' f (n - f) = f :: List.range' (f+1) (n - f - 1) := by
        conv_lhs => rw [show n - f = (n - f - 1) + 1 by omega]
        rw [List.range'_succ]
      by_cases hdead : isDeadF (def_frame.getD f noFrame) = true
      · rw [if_pos hdead]
        have hstart : isDeadRunStart def_frame f = true := by
          unfold isDeadRunStart
          rw [hdead, Bool.true_and]
          rcases hinv with h0 | h0 | h0 | h0
          · rw [h0]
            rfl
          · omega
          · rw [h0, Bool.not_false, Bool.or_true]
          · rw [h0] at hdead
            exact Bool.noConfusion hdead
        obtain ⟨hs1, hs2, hs3, hs4⟩ :=
          skipDead_spec def_frame n fuel (f+1) (by omega) (by omega)
        have hik := ih (skipDead def_frame n fuel (f+1)) (by omega)
          (by
            rcases hs4 with h4 | h4
            · right; left; omega
            · right; right; right; exact h4)
        rw [hik, hrange]
        rw [List.filter_cons_of_pos hstart]
        congr 1
        have hsplit : List.range' (f+1) (n - f - 1) =
            List.range' (f+1) (skipDead def_frame n fuel (f+1) - (f+1)) ++
            List.range' (skipDead def_frame n fuel (f+1))
              (n - skipDead def_frame n fuel (f+1)) := by
          have happ := List.range'_append (f+1)
            (skipDead def_frame n fuel (f+1) - (f+1))
            (n - skipDead def_frame n fuel (f+1)) 1
          rw [show (f+1) + 1 * (skipDead def_frame n fuel (f+1) - (f+1)) =
              skipDead def_frame n fuel (f+1) by omega] at happ
          rw [show (n - skipDead def_frame n fuel (f+1)) +
              (skipDead def_frame n fuel (f+1) - (f+1)) = n - f - 1 by omega] at happ
          exact happ.symm
        rw [hsplit, List.filter_append]
        have hnilfilter : (List.range' (f+1)
            (skipDead def_frame n fuel (f+1) - (f+1))).filter
            (fun g => isDeadRunStart def_frame g) = [] := by
          rw [List.filter_eq_nil_iff]
          intro j hj
          obtain ⟨hjl, hjr⟩ := List.mem_range'_1.mp hj
          have hjlt : j < skipDead def_frame n fuel (f+1) := by omega
          have hjd : isDeadF (def_frame.getD j noFrame) = true := hs3 j hjl hjlt
          have hjd1 : isDeadF (def_frame.getD (j-1) noFrame) = true := by
            rcases Nat.eq_or_lt_of_le hjl with hji | hji
            · rw [show j - 1 = f by omega]
              exact hdead
            · exact hs3 (j-1) (by omega) (by omega)
          unfold isDeadRunStart
          rw [hjd, hjd1, Bool.true_and, Bool.not_true, Bool.or_false,
            decide_eq_true_eq]
          omega
        rw [hnilfilter, List.nil_append]
      · rw [if_neg hdead]
        have hnstart : ¬ isDeadRunStart def_frame f = true := by
          unfold isDeadRunStart
          intro hcon
          exact hdead (Bool.and_eq_true_iff.mp hcon).1
        rw [hrange, List.filter_cons_of_neg hnstart]
        rw [ih (f+1) (by omega)
          (by
            right; right; left
            rw [show f + 1 - 1 = f by omega]
            revert hdead
            cases isDeadF (def_frame.getD f noFrame) <;> simp)]
        rw [show n - (f+1) = n - f - 1 by omega]
    · rw [if_neg hlt]
      have hnf : n - f = 0 := by omega
      rw [hnf]
      rfl

lemma deadRunStarts_eq_filter (def_frame : List Frame) (n : Nat) :
    deadRunStarts def_frame n =
      (List.range n).filter (fun g => isDeadRunStart def_frame g) := by
  unfold deadRunStarts
  rw [deadRunStartsGo_eq_filter def_frame n n 0 (by omega) (Or.inl rfl),
    List.range_eq_range', Nat.sub_zero]

lemma inner_ok_eq (config : Config) (path : String)
    (atk_frame def_frame : List Frame) (out : List Combo)
    (h : inner config path atk_frame def_frame = .ok out) :
    out = (deadRunStarts def_frame atk_frame.length).filterMap
      (comboAtOk config path atk_frame def_frame atk_frame.length) :=
  innerGo_ok_eq config path atk_frame def_frame atk_frame.length
    atk_frame.length 0 out h

lemma lastHitEndGo_lt (def_frame : List Frame) :
    ∀ k i, lastHitEndGo def_frame k = some i → i < k := by
  intro k
  induction k with
  | zero => intro i h; exact Option.noConfusion h
  | succ f ih =>
    intro i h
    rw [lastHitEndGo] at h
    by_cases hc : isHGA (def_frame.getD f noFrame).state.broad_state
    · rw [if_pos hc] at h
      cases h
      omega
    · rw [if_neg hc] at h
      have := ih i h
      omega

lemma pass2Go_shape (atk_frame def_frame : List Frame) (dM : Nat) :
    ∀ f dC aC fh, pass2Go atk_frame def_frame dM f dC aC fh = fh ∨
      ∃ j, j < f ∧ pass2Go atk_frame def_frame dM f dC aC fh = some j := by
  intro f
  induction f with
  | zero => intro dC aC fh; exact Or.inl rfl
  | succ f ih =>
    intro dC aC fh
    simp only [pass2Go]
    by_cases hds : isHitstunB (def_frame.getD f noFrame).state.broad_state
    · rw [if_pos hds]
      by_cases hb1 : (if isHitstunB (atk_frame.getD f noFrame).state.broad_state
          then aC - 1 else aC) = 0
      · rw [if_pos hb1]
        exact Or.inr ⟨f, by omega, rfl⟩
      · rw [if_neg hb1]
        by_cases hb2 : (if defenderActionableDec (def_frame.getD f noFrame).state.broad_state
            then dC - 1 else dM) = 0
        · rw [if_pos hb2]
          exact Or.inr ⟨f, by omega, rfl⟩
        · rw [if_neg hb2]
          rcases ih _ _ (some f) with h | ⟨j, hj, h⟩
          · exact Or.inr ⟨f, by omega, h⟩
          · exact Or.inr ⟨j, by omega, h⟩
    · rw [if_neg hds]
      by_cases hb1 : (if isHitstunB (atk_frame.getD f noFrame).state.broad_state
          then aC - 1 else aC) = 0
      · rw [if_pos hb1]
        exact Or.inl rfl
      · rw [if_neg hb1]
        by_cases hb2 : (if defenderActionableDec (def_frame.getD f noFrame).state.broad_state
            then dC - 1 else dM) = 0
        · rw [if_pos hb2]
          exact Or.inl rfl
        · rw [if_neg hb2]
          rcases ih _ _ fh with h | ⟨j, hj, h⟩
          · exact Or.inl h
          · exact Or.inr ⟨j, by omega, h⟩

/-- A successful locator result indexes strictly inside the window. -/
lemma combo_start_lt_length (atk_frame def_frame : List Frame) (s : ℚ) (i : Nat)
    (h : combo_start atk_frame def_frame s = .ok (some i)) : i < atk_frame.length := by
  simp only [combo_start] at h
  split at h
  · simp at h
  · rename_i lhe hlhe
    split at h
    · simp at h
    · rename_i first hp2
      have hfl : first < lhe := by
        rcases pass2Go_shape atk_frame def_frame ((rustRound (35 - 10 * s)).toNat) lhe
            ((rustRound (35 - 10 * s)).toNat) ((rustRound (65 - 10 * s)).toNat) none with
          hsh | ⟨j, hj, hsh⟩
        · rw [hp2] at hsh; exact Option.noConfusion hsh
        · rw [hp2] at hsh
          cases hsh
          exact hj
      have hlhel : lhe < atk_frame.length := lastHitEndGo_lt def_frame _ lhe hlhe
      have hif : i = first := by
        split at h
        · simp at h
        · split at h
          · simp at h
          · split at h
            · simp at h
            · split at h
              · simp at h
              · split at h
                · simp at h
                · simp only [Except.ok.injEq, Option.some.injEq] at h
                  omega
      omega

/-- Claim C5: whenever the driver's scan reaches a kill frame `f` (the first
frame of a maximal defender-Dead run), the character filters pass there, and
the locator succeeds with `Some start` on the prefixes `[0, f)`, the driver
pushes exactly one Combo for this kill, with
`start = max(0, start - lead_in)` (saturating subtraction) and
`end = min(frame_count, f + lead_out)` where `frame_count` is the timeline
length: the per-kill contribution is exactly that record, the whole output is
the in-order concatenation of per-kill contributions, and the kill frame is
visited exactly once. -/
theorem C5_kill_pushes_one_combo (config : Config) (path : String)
    (atk_frame def_frame : List Frame) (out : List Combo) (f start : Nat)
    (hok : inner config path atk_frame def_frame = .ok out)
    (hf : f < atk_frame.length)
    (hds : isDeadRunStart def_frame f = true)
    (hcf : charFilterPassAt config atk_frame def_frame f = true)
    (hloc : combo_start (atk_frame.take f) (def_frame.take f) config.strictness =
      .ok (some start)) :
    comboAtOk config path atk_frame def_frame atk_frame.length f =
      some { path := path, start := start - config.lead_in,
             «end» := min (f + config.lead_out) atk_frame.length } ∧
    out = (deadRunStarts def_frame atk_frame.length).filterMap
      (comboAtOk config path atk_frame def_frame atk_frame.length) ∧
    (deadRunStarts def_frame atk_frame.length).count f = 1 := by
  refine ⟨?_, inner_ok_eq config path atk_frame def_frame out hok, ?_⟩
  · unfold comboAtOk comboAt
    rw [if_pos hcf, hloc]
  · rw [deadRunStarts_eq_filter]
    refine List.count_eq_one_of_mem ((List.nodup_range _).filter _) ?_
    rw [List.mem_filter, List.mem_range]
    exact ⟨hf, hds⟩

/-- Claim C6: within one driver pass, the kill-handling step is triggered
exactly at the first frame of each maximal contiguous run of defender-Dead
frames — each such run appears exactly once in the trigger list, whether or
not the character filter then allows detection — and each trigger invokes the
locator at most once and contributes at most one Combo, so the output has at
most one Combo per death. -/
theorem C6_one_trigger_per_death (config : Config) (path : String)
    (atk_frame def_frame : List Frame) (out : List Combo)
    (hok : inner config path atk_frame def_frame = .ok out) :
    deadRunStarts def_frame atk_frame.length =
      (List.range atk_frame.length).filter (fun g => isDeadRunStart def_frame g) ∧
    (deadRunStarts def_frame atk_frame.length).Nodup ∧
    out = (deadRunStarts def_frame atk_frame.length).filterMap
      (comboAtOk config path atk_frame def_frame atk_frame.length) ∧
    out.length ≤ (deadRunStarts def_frame atk_frame.length).length := by
  refine ⟨deadRunStarts_eq_filter def_frame atk_frame.length, ?_,
    inner_ok_eq config path atk_frame def_frame out hok, ?_⟩
  · rw [deadRunStarts_eq_filter]
    exact (List.nodup_range _).filter _
  · rw [inner_ok_eq config path atk_frame def_frame out hok]
    exact List.length_filterMap_le _ _

/-- Claim C10: every Combo record the driver appends describes a non-empty
in-bounds window, `start < end ≤ frame_count` (with `start ≥ 0` by type):
the locator's returned index is strictly below the kill frame, the kill frame
is strictly below `frame_count`, and the emitted `end` is at least the kill
frame. -/
theorem C10_combo_bounds (config : Config) (path : String)
    (atk_frame def_frame : List Frame) (out : List Combo)
    (hok : inner config path atk_frame def_frame = .ok out) :
    ∀ c ∈ out, c.start < c.«end» ∧ c.«end» ≤ atk_frame.length := by
  intro c hc
  rw [inner_ok_eq config path atk_frame def_frame out hok] at hc
  obtain ⟨g, hg, hcg⟩ := List.mem_filterMap.mp hc
  rw [deadRunStarts_eq_filter, List.mem_filter, List.mem_range] at hg
  obtain ⟨hgn, _⟩ := hg
  unfold comboAtOk comboAt at hcg
  by_cases hcf : charFilterPassAt config atk_frame def_frame g = true
  · rw [if_pos hcf] at hcg
    cases hloc : combo_start (atk_frame.take g) (def_frame.take g) config.strictness with
    | error e => rw [hloc] at hcg; exact Option.noConfusion hcg
    | ok o =>
      rw [hloc] at hcg
      cases o with
      | none => exact Option.noConfusion hcg
      | some ks =>
        cases hcg
        have hks : ks < (atk_frame.take g).length :=
          combo_start_lt_length _ _ _ _ hloc
        rw [List.length_take] at hks
        have hksg : ks < g := by omega
        constructor
        · simp only
          omega
        · simp only
          omega
  · rw [if_neg hcf] at hcg
    exact Option.noConfusion hcg

/-- The default configuration of the tool (`Config::DEFAULT` with strictness
lowered to 0 for the concrete runs below). -/
def config26 : Config := { lead_in := 30, lead_out := 0, strictness := 0 }

/-- Attacker timeline of the concrete kill-scan run: three attack actions
right after the start, inert otherwise. -/
def atk26 : List Frame :=
  [mkFrame (.Standard (.Other false)) 0 0]
  ++ List.replicate 3 (mkFrame (.Standard .Attack) 1 0)
  ++ List.replicate 22 (mkFrame (.Standard (.Other false)) 0 0)

/-- Defender timeline of the concrete kill-scan run: twenty hitstun frames,
four ground frames, then death at frame 25, having taken 50 damage. -/
def def26 : List Frame :=
  [mkFrame (.Standard (.Other false)) 0 0]
  ++ List.replicate 20 (mkFrame (.Standard .Hitstun) 0 50)
  ++ List.replicate 4 (mkFrame (.Standard .Ground) 0 50)
  ++ [mkFrame (.Standard .Dead) 0 50]

/-- Witness for C5 on the concrete match: the kill at frame 25 yields the
single Combo with saturated `start = 1 - 30 = 0` and `end = min(25, 26)`. -/
theorem C5_kill_pushes_one_combo_witness :
    inner config26 "m.slp" atk26 def26 = .ok [{ path := "m.slp", start := 0, «end» := 25 }] ∧
    25 < atk26.length ∧
    isDeadRunStart def26 25 = true ∧
    charFilterPassAt config26 atk26 def26 25 = true ∧
    combo_start (atk26.take 25) (def26.take 25) config26.strictness = .ok (some 1) ∧
    (comboAtOk config26 "m.slp" atk26 def26 atk26.length 25 =
        some { path := "m.slp", start := 1 - config26.lead_in,
               «end» := min (25 + config26.lead_out) atk26.length } ∧
      [{ path := "m.slp", start := 0, «end» := 25 }] =
        (deadRunStarts def26 atk26.length).filterMap
          (comboAtOk config26 "m.slp" atk26 def26 atk26.length) ∧
      (deadRunStarts def26 atk26.length).count 25 = 1) := by
  refine ⟨?h1, ?h2, ?h3, ?h4, ?h5, ?_⟩
  case h1 => with_unfolding_all decide
  case h2 => with_unfolding_all decide
  case h3 => with_unfolding_all decide
  case h4 => with_unfolding_all decide
  case h5 => with_unfolding_all decide
  exact C5_kill_pushes_one_combo config26 "m.slp" atk26 def26 _ 25 1
    (by with_unfolding_all decide) (by with_unfolding_all decide)
    (by with_unfolding_all decide) (by with_unfolding_all decide)
    (by with_unfolding_all decide)

/-- Witness for C6 on the concrete match: the driver's only trigger is the
kill frame 25, visited once. -/
theorem C6_one_trigger_per_death_witness :
    inner config26 "m.slp" atk26 def26 = .ok [{ path := "m.slp", start := 0, «end» := 25 }] ∧
    (deadRunStarts def26 atk26.length =
        (List.range atk26.length).filter (fun g => isDeadRunStart def26 g) ∧
      (deadRunStarts def26 atk26.length).Nodup ∧
      [{ path := "m.slp", start := 0, «end» := 25 }] =
        (deadRunStarts def26 atk26.length).filterMap
          (comboAtOk config26 "m.slp" atk26 def26 atk26.length) ∧
      [({ path := "m.slp", start := 0, «end» := 25 } : Combo)].length ≤
        (deadRunStarts def26 atk26.length).length) :=
  ⟨by with_unfolding_all decide,
    C6_one_trigger_per_death config26 "m.slp" atk26 def26 _
      (by with_unfolding_all decide)⟩

/-- Witness for C10 on the concrete match: the emitted window `[0, 25)` is
non-empty and inside the 26-frame timeline. -/
theorem C10_combo_bounds_witness :
    inner config26 "m.slp" atk26 def26 = .ok [{ path := "m.slp", start := 0, «end» := 25 }] ∧
    ∀ c ∈ [({ path := "m.slp", start := 0, «end» := 25 } : Combo)],
      c.start < c.«end» ∧ c.«end» ≤ atk26.length :=
  ⟨by with_unfolding_all decide,
    C10_combo_bounds config26 "m.slp" atk26 def26 _
      (by with_unfolding_all decide)⟩

/-! ### Claims C3 and C8 — failure propagation -/

/-- The per-file failures that `combos` absorbs (returning zero combos):
`read_info` fails, the port info is missing, or — after the character and
text lookups succeed — `read_game` fails. -/
def absorbedFailure (o : RunOracle) (p : String) : Prop :=
  o.readInfo p = .error () ∨
  (∃ i, o.readInfo p = .ok i ∧ i.lowHigh = none) ∨
  (∃ i lo hi c1 c2 n1 n2 d1 d2,
    o.readInfo p = .ok i ∧ i.lowHigh = some (lo, hi) ∧
    i.charColours lo = some c1 ∧ i.charColours hi = some c2 ∧
    o.decodeShiftJis (i.names lo) = .ok n1 ∧
    o.decodeShiftJis (i.names hi) = .ok n2 ∧
    o.decodeShiftJis (i.connectCodes lo) = .ok d1 ∧
    o.decodeShiftJis (i.connectCodes hi) = .ok d2 ∧
    o.readGame p = .error ())

/-- Claim C3 (amended): a parse failure local to one file — an unreadable or
malformed recording (`read_info` error), missing port info, or a failed full
decode (`read_game` error) — contributes zero combos for that file and the
run continues with the remaining files unchanged.  (As claimed originally
this also covered undecodable name/connect-code bytes, but those panic and
abort the whole run: see the counterexample.) -/
theorem C3_absorbed_failures (o : RunOracle) (config : Config) (p : String)
    (rest : List String) (h : absorbedFailure o p) :
    combosFile o config p = .ok [] ∧
    runFiles o config (p :: rest) = runFiles o config rest := by
  have hfile : combosFile o config p = .ok [] := by
    unfold combosFile
    rcases h with h | ⟨i, hi, hlh⟩ |
      ⟨i, lo, hi_, c1, c2, n1, n2, d1, d2, hinfo, hlh, hc1, hc2, hn1, hn2, hd1, hd2, hg⟩
    · rw [h]
    · simp only [hi, hlh]
    · simp only [hinfo, hlh, hc1, hc2, hn1, hn2, hd1, hd2]
      by_cases hp : (passes config c1 d1 n1 c2 d2 n2 || passes config c2 d2 n2 c1 d1 n1) = true
      · rw [if_pos hp]
        simp only [hg]
      · rw [if_neg hp]
  refine ⟨hfile, ?_⟩
  show (match combosFile o config p with
    | .error e => .error e
    | .ok l => match runFiles o config rest with
      | .error e => .error e
      | .ok r => .ok (l ++ r)) = runFiles o config rest
  rw [hfile]
  cases runFiles o config rest <;> rfl

/-- Match metadata whose name/connect-code bytes do not decode. -/
def infoC3 : MatchInfo :=
  { lowHigh := some (0, 1)
    charColours := fun _ => some 0
    names := fun _ => [130]
    connectCodes := fun _ => [130] }

/-- Oracle for the C3 counterexample: every file parses to `infoC3`, but
shift-JIS decoding of its name/connect-code bytes fails. -/
def oracleC3 : RunOracle :=
  { readInfo := fun _ => .ok infoC3
    readGame := fun _ => .error ()
    decodeShiftJis := fun _ => .error ()
    pathExists := fun _ => true
    targets := fun _ => ["bad.slp", "good.slp"] }

/-- A configuration with no filters, used by the oracle runs. -/
def configNoFilter : Config := { lead_in := 30, lead_out := 0, strictness := 1/2 }

/-- Counterexample to claim C3 as stated: a file whose name/connect-code
bytes fail to decode does not contribute zero combos and continue — the
`decode_shift_jis(..).unwrap()` calls panic, the panic propagates out of the
per-file driver and the whole run aborts before the remaining file is
processed. -/
theorem C3_counterexample :
    combosFile oracleC3 configNoFilter "bad.slp" = .error () ∧
    runFiles oracleC3 configNoFilter ["bad.slp", "good.slp"] = .error () ∧
    target_path oracleC3 configNoFilter "root" = .panicked := by
  refine ⟨?_, ?_, ?_⟩ <;> with_unfolding_all decide

/-- Oracle for the C3 witness: `read_info` fails on every file. -/
def oracleC3w : RunOracle :=
  { readInfo := fun _ => .error ()
    readGame := fun _ => .error ()
    decodeShiftJis := fun _ => .error ()
    pathExists := fun _ => true
    targets := fun _ => [] }

/-- Witness for the amended C3: an unreadable recording contributes zero
combos and the rest of the run is unaffected. -/
theorem C3_absorbed_failures_witness :
    absorbedFailure oracleC3w "x.slp" ∧
    (combosFile oracleC3w configNoFilter "x.slp" = .ok [] ∧
      runFiles oracleC3w configNoFilter ["x.slp", "y.slp"] =
        runFiles oracleC3w configNoFilter ["y.slp"]) :=
  ⟨Or.inl rfl, C3_absorbed_failures oracleC3w configNoFilter "x.slp" ["y.slp"] (Or.inl rfl)⟩

/-- Claim C8: the top-level dispatch returns `PathNotFound` exactly when the
up-front existence check on the root fails — for every oracle, whatever the
enumeration and per-file parsing behaviour (so the check precedes all of
them, and no per-file parse failure ever surfaces as the call's error). -/
theorem C8_path_not_found_iff (o : RunOracle) (config : Config) (path : String) :
    target_path o config path = .err .PathNotFound ↔ o.pathExists path = false := by
  unfold target_path
  by_cases h : o.pathExists path = false
  · rw [if_pos h]
    simp [h]
  · rw [if_neg h]
    constructor
    · intro hcon
      split at hcon <;> exact RunResult.noConfusion hcon
    · intro hcon
      exact absurd hcon h







end Slp
